import Mathlib

/-!
# SIMBAD — verification of the spec against the source

Shallow embedding of the core of the SIMBAD repository
(`simbad/util/mtz_util.py` and `simbad/util/amore_util.py`) together with
proofs settling the frozen claims about it.

Conventions:
* Python floats are modelled as rationals (`ℚ`); the numerical values the
  claims exercise are exactly representable.
* cctbx miller arrays are modelled by provenance terms (`Deriv α`): each
  derivation the source delegates to the cctbx library
  (`set_observation_type_*`, `as_non_anomalous_array`, `merge_equivalents`,
  `generate_r_free_flags`) becomes a constructor, so a theorem about which
  array a column was derived from is a statement about the term structure.
* Fallible Python code (uncaught exceptions) is modelled with `Except String`,
  the string naming the exception.
-/

namespace Simbad

/-! ## `simbad/util/mtz_util.py` — `CreateMtz`

Provenance terms for cctbx miller arrays.  `orig a` is an array taken
unchanged from the input reflection file; the other constructors record the
cctbx transform the source applies. -/

inductive Deriv (α : Type) : Type
  /-- an array present in the input reflection file -/
  | orig : α → Deriv α
  /-- `set_observation_type_xray_amplitude()` -/
  | setObsAmplitude : Deriv α → Deriv α
  /-- `set_observation_type_xray_intensity()` -/
  | setObsIntensity : Deriv α → Deriv α
  /-- `set_observation_type(observation_types.reconstructed_amplitude())` -/
  | setObsReconstructed : Deriv α → Deriv α
  /-- `as_non_anomalous_array()` -/
  | asNonAnomalous : Deriv α → Deriv α
  /-- `merge_equivalents()` followed by `.array()` -/
  | mergeEquivalents : Deriv α → Deriv α
  /-- `generate_r_free_flags(format='ccp4')` -/
  | generateRFreeFlags : Deriv α → Deriv α
  deriving DecidableEq, Repr

/-- The mutable attribute state of a `CreateMtz` instance.  The free array
keeps its first column label (`info().labels[0]` in the source) next to its
provenance term.  `mtz_dataset` is `none` while the cctbx dataset object is
still `None`; once created it is the ordered list of
(miller array, column_root_label) pairs added to it. -/
structure CreateMtzState (α : Type) where
  amplitude_array : Option (Deriv α)
  anomalous_amplitude_array : Option (Deriv α)
  reconstructed_amplitude_array : Option (Deriv α)
  intensity_array : Option (Deriv α)
  anomalous_intensity_array : Option (Deriv α)
  free_array : Option (String × Deriv α)
  mtz_dataset : Option (List (Deriv α × String))
  deriving DecidableEq, Repr

/-- `CreateMtz.add_array_to_mtz_dataset`: create the dataset from the first
array, append afterwards. -/
def add_array_to_mtz_dataset {α : Type} (s : CreateMtzState α)
    (miller_array : Deriv α) (column_root_label : String) : CreateMtzState α :=
  match s.mtz_dataset with
  | some l => { s with mtz_dataset := some (l ++ [(miller_array, column_root_label)]) }
  | none => { s with mtz_dataset := some [(miller_array, column_root_label)] }

/-- `CreateMtz.create_amplitude_array` -/
def create_amplitude_array {α : Type} (s : CreateMtzState α) (intensity_array : Deriv α) :
    CreateMtzState α :=
  { s with amplitude_array := some (.setObsAmplitude intensity_array) }

/-- `CreateMtz.create_anomalous_amplitude_array` -/
def create_anomalous_amplitude_array {α : Type} (s : CreateMtzState α)
    (anomalous_intensity_array : Deriv α) : CreateMtzState α :=
  { s with anomalous_amplitude_array := some (.setObsAmplitude anomalous_intensity_array) }

/-- `CreateMtz.create_anomalous_intensity_array` -/
def create_anomalous_intensity_array {α : Type} (s : CreateMtzState α)
    (anomalous_amplitude_array : Deriv α) : CreateMtzState α :=
  { s with anomalous_intensity_array := some (.setObsIntensity anomalous_amplitude_array) }

/-- `CreateMtz.create_intensity_array` -/
def create_intensity_array {α : Type} (s : CreateMtzState α) (amplitude_array : Deriv α) :
    CreateMtzState α :=
  { s with intensity_array := some (.setObsIntensity amplitude_array) }

/-- `CreateMtz.create_merged_intensity_array` -/
def create_merged_intensity_array {α : Type} (s : CreateMtzState α)
    (anomalous_intensity_array : Deriv α) : CreateMtzState α :=
  { s with intensity_array := some (.setObsIntensity (.mergeEquivalents (.asNonAnomalous anomalous_intensity_array))) }

/-- `CreateMtz.create_reconstructed_amplitude_array` -/
def create_reconstructed_amplitude_array {α : Type} (s : CreateMtzState α)
    (anomalous_amplitude_array : Deriv α) : CreateMtzState α :=
  { s with reconstructed_amplitude_array := some (.setObsReconstructed anomalous_amplitude_array) }

/-- Error message raised (as a `RuntimeError`) by `process_miller_arrays`,
kept with the source's wording. -/
def missingDataMsg : String := "No amplitudes of intensities found in input reflection file"

/-- The `# Add amplitudes` section of `CreateMtz.process_miller_arrays`.
Python truthiness of a possibly-`None` attribute is the `Option` match;
truthiness of a real miller array object is always true.  The attribute set
by each `create_*` call is guaranteed `some`, so it is read back directly. -/
def add_amplitudes {α : Type} (s : CreateMtzState α) : Except String (CreateMtzState α) :=
  match s.reconstructed_amplitude_array with
  | some ra => .ok (add_array_to_mtz_dataset s ra "F")
  | none =>
    match s.anomalous_amplitude_array with
    | some aa =>
      let s := create_reconstructed_amplitude_array s aa
      .ok (add_array_to_mtz_dataset s (.setObsReconstructed aa) "F")
    | none =>
      match s.anomalous_intensity_array with
      | some ai =>
        let s := create_anomalous_amplitude_array s ai
        let s := create_reconstructed_amplitude_array s (.setObsAmplitude ai)
        .ok (add_array_to_mtz_dataset s (.setObsReconstructed (.setObsAmplitude ai)) "F")
      | none =>
        match s.amplitude_array with
        | some a => .ok (add_array_to_mtz_dataset s a "F")
        | none =>
          match s.intensity_array with
          | some i =>
            let s := create_amplitude_array s i
            .ok (add_array_to_mtz_dataset s (.setObsAmplitude i) "F")
          | none => .error missingDataMsg

/-- The `# Add intensities` section of `CreateMtz.process_miller_arrays`. -/
def add_intensities {α : Type} (s : CreateMtzState α) : Except String (CreateMtzState α) :=
  match s.intensity_array with
  | some i => .ok (add_array_to_mtz_dataset s i "I")
  | none =>
    match s.amplitude_array with
    | some a =>
      let s := create_intensity_array s a
      .ok (add_array_to_mtz_dataset s (.setObsIntensity a) "I")
    | none =>
      match s.anomalous_intensity_array with
      | some ai =>
        let s := create_merged_intensity_array s ai
        .ok (add_array_to_mtz_dataset s
          (.setObsIntensity (.mergeEquivalents (.asNonAnomalous ai))) "I")
      | none =>
        match s.anomalous_amplitude_array with
        | some aa =>
          let s := create_anomalous_intensity_array s aa
          let s := create_merged_intensity_array s (.setObsIntensity aa)
          .ok (add_array_to_mtz_dataset s
            (.setObsIntensity (.mergeEquivalents (.asNonAnomalous (.setObsIntensity aa)))) "I")
        | none =>
          match s.reconstructed_amplitude_array with
          | some ra =>
            let s := create_anomalous_intensity_array s ra
            let s := create_merged_intensity_array s (.setObsIntensity ra)
            .ok (add_array_to_mtz_dataset s
              (.setObsIntensity (.mergeEquivalents (.asNonAnomalous (.setObsIntensity ra)))) "I")
          | none => .error missingDataMsg

/-- The `# Add free flag` section of `CreateMtz.process_miller_arrays`.  In
the `else` branch the source reads `self.intensity_array`, which the
intensities section always leaves set; reaching it with `None` would be a
cctbx-level `AttributeError`. -/
def add_free_flag {α : Type} (s : CreateMtzState α) : Except String (CreateMtzState α) :=
  match s.free_array with
  | some fa => .ok (add_array_to_mtz_dataset s fa.2 fa.1)
  | none =>
    match s.intensity_array with
    | some i =>
      let s := { s with free_array := some ("FreeR_flag", .generateRFreeFlags i) }
      .ok (add_array_to_mtz_dataset s (.generateRFreeFlags i) "FreeR_flag")
    | none => .error "AttributeError"

/-- `CreateMtz.process_miller_arrays`: the three sections of the source in
order (amplitudes, then intensities, then free flag). -/
def process_miller_arrays {α : Type} (s : CreateMtzState α) :
    Except String (CreateMtzState α) :=
  (add_amplitudes s).bind fun s => (add_intensities s).bind add_free_flag

/-- The canonical amplitude selection, written from the spec's priority list
(reconstructed_amplitude → from anomalous_amplitude → from anomalous_intensity
→ amplitude → from intensity), to be compared against
`process_miller_arrays`. -/
def amplitudeChoiceSpec {α : Type} (s : CreateMtzState α) : Option (Deriv α) :=
  match s.reconstructed_amplitude_array with
  | some ra => some ra
  | none =>
    match s.anomalous_amplitude_array with
    | some aa => some (.setObsReconstructed aa)
    | none =>
      match s.anomalous_intensity_array with
      | some ai => some (.setObsReconstructed (.setObsAmplitude ai))
      | none =>
        match s.amplitude_array with
        | some a => some a
        | none =>
          match s.intensity_array with
          | some i => some (.setObsAmplitude i)
          | none => none

/-- The canonical intensity selection, written from the spec's priority list
(intensity → from amplitude → merged from anomalous_intensity → from
anomalous_amplitude via anomalous intensity then merge → from
reconstructed_amplitude via the same merge path), to be compared against
`process_miller_arrays`. -/
def intensityChoiceSpec {α : Type} (s : CreateMtzState α) : Option (Deriv α) :=
  match s.intensity_array with
  | some i => some i
  | none =>
    match s.amplitude_array with
    | some a => some (.setObsIntensity a)
    | none =>
      match s.anomalous_intensity_array with
      | some ai => some (.setObsIntensity (.mergeEquivalents (.asNonAnomalous ai)))
      | none =>
        match s.anomalous_amplitude_array with
        | some aa =>
          some (.setObsIntensity (.mergeEquivalents (.asNonAnomalous (.setObsIntensity aa))))
        | none =>
          match s.reconstructed_amplitude_array with
          | some ra =>
            some (.setObsIntensity (.mergeEquivalents (.asNonAnomalous (.setObsIntensity ra))))
          | none => none

/-! ### `CreateMtz.get_array_types`

An input miller array is modelled by the values its classification
attributes/predicates would yield.  The `is_xray_*` fields hold the value the
corresponding cctbx *method call* would return. -/

structure MillerArrayInfo where
  observation_type_is_none : Bool
  looks_like_r_free_flags_info : Bool
  is_xray_amplitude_array : Bool
  is_xray_reconstructed_amplitude_array : Bool
  is_xray_intensity_array : Bool
  anomalous_flag : Bool
  deriving DecidableEq, Repr

/-- The six classification slots `get_array_types` assigns
(`self.amplitude_array`, …, `self.free_array`). -/
structure ArraySlots where
  amplitude_array : Option MillerArrayInfo
  anomalous_amplitude_array : Option MillerArrayInfo
  reconstructed_amplitude_array : Option MillerArrayInfo
  intensity_array : Option MillerArrayInfo
  anomalous_intensity_array : Option MillerArrayInfo
  free_array : Option MillerArrayInfo
  deriving DecidableEq, Repr

/-- In the source's classification chain the flavor predicates are referenced
without being called (`miller_array.is_xray_amplitude_array`, no
parentheses, and likewise `is_xray_reconstructed_amplitude_array` and
`is_xray_intensity_array`), so each condition sees the bound-method object,
which is always truthy in Python.  This constant is the truthiness those
conditions actually test. -/
def method_reference_truthy : Bool := true

/-- `CreateMtz.get_array_types`: one pass over all miller arrays.  The free
check is a separate `if`; the flavor chain is `if/elif` with the uncalled
predicates modelled by `method_reference_truthy` (see its docstring); only
`anomalous_flag()` is actually called in the source. -/
def get_array_types (s : ArraySlots) (all_miller_arrays : List MillerArrayInfo) : ArraySlots :=
  all_miller_arrays.foldl (fun s ma =>
    let s :=
      if ma.observation_type_is_none && ma.looks_like_r_free_flags_info then
        { s with free_array := some ma }
      else s
    if method_reference_truthy && !ma.anomalous_flag then
      { s with amplitude_array := some ma }
    else if method_reference_truthy && ma.anomalous_flag then
      { s with anomalous_amplitude_array := some ma }
    else if method_reference_truthy then
      { s with reconstructed_amplitude_array := some ma }
    else if method_reference_truthy && !ma.anomalous_flag then
      { s with intensity_array := some ma }
    else if method_reference_truthy && ma.anomalous_flag then
      { s with anomalous_intensity_array := some ma }
    else s) s

/-! ### Observation helpers for `process_miller_arrays` results -/

/-- The ordered column list of the mtz dataset produced by a
`process_miller_arrays` run (empty on error). -/
def columnsOf {α : Type} (r : Except String (CreateMtzState α)) : List (Deriv α × String) :=
  match r with
  | .ok t => t.mtz_dataset.getD []
  | .error _ => []

/-- Whether a fallible computation succeeded. -/
def exceptIsOk {ε β : Type} : Except ε β → Bool
  | .ok _ => true
  | .error _ => false

/-- A reflection set holding only an anomalous intensity array (plus a free
array labelled "FREE"), used to instantiate the mtz theorems. -/
def anomalousIntensityOnly : CreateMtzState Nat :=
  ⟨none, none, none, none, some (.orig 1), some ("FREE", .orig 9), none⟩

/-! ### Claim theorems for `process_miller_arrays` and `get_array_types` -/

/-- C1: starting from an empty dataset, the first column added by
`process_miller_arrays` is labelled "F" and holds exactly the array picked by
the spec's amplitude priority (reconstructed_amplitude, else reconstructed
from anomalous_amplitude, else anomalous_intensity → anomalous amplitude →
reconstruct, else amplitude, else amplitude derived from intensity); when the
priority list is exhausted the run fails with the missing-data error. -/
theorem amplitude_column_priority {α : Type} (s : CreateMtzState α)
    (h : s.mtz_dataset = none) :
    (columnsOf (process_miller_arrays s)).head? =
        (amplitudeChoiceSpec s).map (fun a => (a, "F")) ∧
    (amplitudeChoiceSpec s = none → process_miller_arrays s = .error missingDataMsg) := by
  obtain ⟨a0, aa0, ra0, i0, ai0, f0, d0⟩ := s
  dsimp only at h
  subst h
  rcases a0 with _ | a <;> rcases aa0 with _ | aa <;> rcases ra0 with _ | ra <;>
    rcases i0 with _ | i <;> rcases ai0 with _ | ai <;> rcases f0 with _ | f <;>
    exact ⟨rfl, fun h => by first | rfl | exact Option.noConfusion h⟩

/-- Witness for C1: the anomalous-intensity-only input takes the
derive-anomalous-amplitude-then-reconstruct path. -/
theorem amplitude_column_priority_witness :
    anomalousIntensityOnly.mtz_dataset = none ∧
    ((columnsOf (process_miller_arrays anomalousIntensityOnly)).head? =
        (amplitudeChoiceSpec anomalousIntensityOnly).map (fun a => (a, "F")) ∧
      (amplitudeChoiceSpec anomalousIntensityOnly = none →
        process_miller_arrays anomalousIntensityOnly = .error missingDataMsg)) :=
  ⟨rfl, amplitude_column_priority anomalousIntensityOnly rfl⟩

/-- C2: starting from an empty dataset, the second column added by
`process_miller_arrays` is labelled "I" and holds exactly the array picked by
the spec's intensity priority (intensity, else derived from amplitude, else
merged from anomalous_intensity, else anomalous_amplitude → anomalous
intensity → merge, else reconstructed_amplitude by the same merge path);
when the priority list is exhausted the run fails with the missing-data
error. -/
theorem intensity_column_priority {α : Type} (s : CreateMtzState α)
    (h : s.mtz_dataset = none) :
    (columnsOf (process_miller_arrays s))[1]? =
        (intensityChoiceSpec s).map (fun i => (i, "I")) ∧
    (intensityChoiceSpec s = none → process_miller_arrays s = .error missingDataMsg) := by
  obtain ⟨a0, aa0, ra0, i0, ai0, f0, d0⟩ := s
  dsimp only at h
  subst h
  rcases a0 with _ | a <;> rcases aa0 with _ | aa <;> rcases ra0 with _ | ra <;>
    rcases i0 with _ | i <;> rcases ai0 with _ | ai <;> rcases f0 with _ | f <;>
    exact ⟨rfl, fun h => by first | rfl | exact Option.noConfusion h⟩

/-- Witness for C2: the anomalous-intensity-only input takes the
merge-from-anomalous-intensity path. -/
theorem intensity_column_priority_witness :
    anomalousIntensityOnly.mtz_dataset = none ∧
    ((columnsOf (process_miller_arrays anomalousIntensityOnly))[1]? =
        (intensityChoiceSpec anomalousIntensityOnly).map (fun i => (i, "I")) ∧
      (intensityChoiceSpec anomalousIntensityOnly = none →
        process_miller_arrays anomalousIntensityOnly = .error missingDataMsg)) :=
  ⟨rfl, intensity_column_priority anomalousIntensityOnly rfl⟩

/-- C10: on a successful `process_miller_arrays` run starting from an empty
dataset, the free-flag column (the last column added) keeps the input free
array's first label verbatim when a free array is present, and otherwise is
synthesized by `generate_r_free_flags` from the canonical intensity array and
labelled exactly "FreeR_flag". -/
theorem free_flag_column_label {α : Type} (s : CreateMtzState α)
    (h : s.mtz_dataset = none)
    (hok : exceptIsOk (process_miller_arrays s) = true) :
    (∀ fa, s.free_array = some fa →
      (columnsOf (process_miller_arrays s)).getLast? = some (fa.2, fa.1)) ∧
    (s.free_array = none →
      (columnsOf (process_miller_arrays s)).getLast? =
        (intensityChoiceSpec s).map (fun i => (Deriv.generateRFreeFlags i, "FreeR_flag"))) := by
  obtain ⟨a0, aa0, ra0, i0, ai0, f0, d0⟩ := s
  dsimp only at h
  subst h
  rcases a0 with _ | a <;> rcases aa0 with _ | aa <;> rcases ra0 with _ | ra <;>
    rcases i0 with _ | i <;> rcases ai0 with _ | ai <;> rcases f0 with _ | f <;>
    first
      | exact Bool.noConfusion hok
      | exact ⟨fun fa hfa => by cases Option.some.inj hfa; rfl,
          fun hn => Option.noConfusion hn⟩
      | exact ⟨fun fa hfa => Option.noConfusion hfa, fun _ => rfl⟩

/-- Witness for C10: the anomalous-intensity-only input carries a free array
labelled "FREE", and that label is kept. -/
theorem free_flag_column_label_witness :
    anomalousIntensityOnly.mtz_dataset = none ∧
    exceptIsOk (process_miller_arrays anomalousIntensityOnly) = true ∧
    ((∀ fa, anomalousIntensityOnly.free_array = some fa →
        (columnsOf (process_miller_arrays anomalousIntensityOnly)).getLast? =
          some (fa.2, fa.1)) ∧
      (anomalousIntensityOnly.free_array = none →
        (columnsOf (process_miller_arrays anomalousIntensityOnly)).getLast? =
          (intensityChoiceSpec anomalousIntensityOnly).map
            (fun i => (Deriv.generateRFreeFlags i, "FreeR_flag")))) :=
  ⟨rfl, rfl, free_flag_column_label anomalousIntensityOnly rfl rfl⟩

/-- C3 (code bug): a plain, non-anomalous intensity array — whose flavor
predicates answer `is_xray_intensity_array() = true` and everything else
false — is stored by `get_array_types` in `amplitude_array`, and
`intensity_array` is left unset: the chain's first condition reads the
uncalled method object `miller_array.is_xray_amplitude_array`, which is
truthy, so every non-anomalous array is classified as an amplitude array
(and every anomalous one as an anomalous amplitude array), contradicting the
function's own docstring. -/
theorem get_array_types_sends_intensity_to_amplitude_slot :
    get_array_types ⟨none, none, none, none, none, none⟩
        [⟨false, false, false, false, true, false⟩] =
      ⟨some ⟨false, false, false, false, true, false⟩, none, none, none, none, none⟩ ∧
    (get_array_types ⟨none, none, none, none, none, none⟩
        [⟨false, false, false, false, true, false⟩]).intensity_array = none := by
  exact ⟨rfl, rfl⟩

/-! ## `simbad/util/amore_util.py` — geometry helper

`amore.calculate_intr_box`.  The parts delegated to iotbx (reading the PDB
file, `extract_best_resolution`, walking
`hierarchy.models()[0].chains()[0]`) are modelled by the function's inputs:
the mined resolution (`none` when mining fails) and the atom coordinates of
the first chain of the first model.  Python floats are rationals. -/

/-- Python binary `max` (kept executable for the kernel). -/
def pyMax2 (a b : ℚ) : ℚ := if a < b then b else a

/-- Python binary `min` (kept executable for the kernel). -/
def pyMin2 (a b : ℚ) : ℚ := if b < a then b else a

/-- Python `max` over a nonempty sequence, seeded with the first element. -/
def listFoldMax (a : ℚ) (l : List ℚ) : ℚ := l.foldl pyMax2 a

/-- Python `min` over a nonempty sequence, seeded with the first element. -/
def listFoldMin (a : ℚ) (l : List ℚ) : ℚ := l.foldl pyMin2 a

/-- `amore.calculate_intr_box`: bounding-box extents, integration radius
0.75 × the smallest extent, and per-axis extent + radius + resolution.
`none` models the `ValueError` Python's `max`/`min` raise on an empty
coordinate list. -/
def calculate_intr_box (mined_resolution : Option ℚ) (coords : List (ℚ × ℚ × ℚ)) :
    Option (ℚ × ℚ × ℚ × ℚ) :=
  -- Set a default resolution if mining fails
  let resolution := mined_resolution.getD 2
  match coords with
  | [] => none
  | c :: cs =>
    let xdiff := listFoldMax c.1 (cs.map (fun p => p.1)) - listFoldMin c.1 (cs.map (fun p => p.1))
    let ydiff := listFoldMax c.2.1 (cs.map (fun p => p.2.1)) - listFoldMin c.2.1 (cs.map (fun p => p.2.1))
    let zdiff := listFoldMax c.2.2 (cs.map (fun p => p.2.2)) - listFoldMin c.2.2 (cs.map (fun p => p.2.2))
    let intrad := pyMin2 (pyMin2 xdiff ydiff) zdiff * (3 / 4)
    some (xdiff + intrad + resolution, ydiff + intrad + resolution, zdiff + intrad + resolution, intrad)

/-- C9 counterexample: on the spec's synthetic coordinate set with
resolution 2.0 the z dimension is 2 + 1.5 + 2.0 = 5.5, so the output is not
the claimed (13.5, 8.5, 5.0, 1.5). -/
theorem calculate_intr_box_example_refutes_claim :
    calculate_intr_box (some 2) [(0, 0, 0), (10, 0, 0), (0, 5, 0), (0, 0, 2)] ≠
      some (27 / 2, 17 / 2, 5, 3 / 2) := by
  norm_num [calculate_intr_box, listFoldMax, listFoldMin, pyMax2, pyMin2]

/-- C9 amended: `calculate_intr_box` on coordinates
{(0,0,0),(10,0,0),(0,5,0),(0,0,2)} with resolution 2.0 has bounding extents
(10, 5, 2), integration radius 0.75 × 2 = 1.5, and returns exactly
(13.5, 8.5, 5.5, 1.5). -/
theorem calculate_intr_box_example :
    calculate_intr_box (some 2) [(0, 0, 0), (10, 0, 0), (0, 5, 0), (0, 0, 2)] =
      some (27 / 2, 17 / 2, 11 / 2, 3 / 2) := by
  norm_num [calculate_intr_box, listFoldMax, listFoldMin, pyMax2, pyMin2]

/-! ## `simbad/util/amore_util.py` — `amore_results.return_z_score_results`

A whitespace token of a log line either parses as a Python float or fails
`float()`; `Tok` records exactly that distinction, which is all the parser
observes. -/

inductive Tok : Type
  /-- a token `float()` parses to the rational `q` -/
  | num : ℚ → Tok
  /-- a token on which `float()` raises `ValueError` -/
  | raw : Tok
  deriving DecidableEq, Repr

/-- One log line: whether it starts with the sentinel `" SOLUTIONRCD "`, and
its `line.split()` token list. -/
structure LogLine where
  is_solutionrcd : Bool
  fields : List Tok
  deriving DecidableEq, Repr

/-- Python list indexing with negative indices; `none` is an `IndexError`. -/
def pyIndex {α : Type} (l : List α) (i : Int) : Option α :=
  if i < 0 then
    if (l.length : Int) + i < 0 then none else l.get? ((l.length : Int) + i).toNat
  else l.get? i.toNat

/-- `float(fields[i])`: `IndexError` out of range, `ValueError` on an
unparseable token. -/
def pyFloatAt (fields : List Tok) (i : Int) : Except String ℚ :=
  match pyIndex fields i with
  | none => .error "IndexError"
  | some (.num q) => .ok q
  | some .raw => .error "ValueError"

/-- A Python float field that may instead hold the string `'N/A'`. -/
inductive PyNumOrNA : Type
  | val : ℚ → PyNumOrNA
  | na : PyNumOrNA
  deriving DecidableEq, Repr

/-- The numeric values one qualifying `SOLUTIONRCD` line yields (everything
of the namedtuple except `log_name`). -/
structure SolutionVals where
  ALPHA : ℚ
  BETA : ℚ
  GAMMA : ℚ
  CC_F : PyNumOrNA
  RF_F : PyNumOrNA
  CC_I : PyNumOrNA
  CC_P : PyNumOrNA
  Icp : PyNumOrNA
  CC_F_Z_score : ℚ
  CC_P_Z_score : ℚ
  Num_of_rot : ℚ
  deriving DecidableEq, Repr

/-- The `amore_results` namedtuple. -/
structure AmoreRec where
  log_name : String
  vals : SolutionVals
  deriving DecidableEq, Repr

/-- The `try:` block of the line parse, statements in source order; the first
failing `float()` aborts it with that exception. -/
def parse_solution_try (fields : List Tok) : Except String SolutionVals := do
  let a ← pyFloatAt fields 2
  let b ← pyFloatAt fields 3
  let g ← pyFloatAt fields 4
  let ccf ← pyFloatAt fields 8
  let rff ← pyFloatAt fields 9
  let cci ← pyFloatAt fields 10
  let ccp ← pyFloatAt fields 11
  let icp ← pyFloatAt fields 12
  let z1 ← pyFloatAt fields (-3)
  let z2 ← pyFloatAt fields (-2)
  let nr ← pyFloatAt fields (-1)
  pure ⟨a, b, g, .val ccf, .val rff, .val cci, .val ccp, .val icp, z1, z2, nr⟩

/-- The `except ValueError:` block: angles and the Z-score/peak-count tail
are re-parsed (a failure here is uncaught), the five middle fields become
`'N/A'`. -/
def parse_solution_fallback (fields : List Tok) : Except String SolutionVals := do
  let a ← pyFloatAt fields 2
  let b ← pyFloatAt fields 3
  let g ← pyFloatAt fields 4
  let z1 ← pyFloatAt fields (-3)
  let z2 ← pyFloatAt fields (-2)
  let nr ← pyFloatAt fields (-1)
  pure ⟨a, b, g, .na, .na, .na, .na, .na, z1, z2, nr⟩

/-- The full `try/except ValueError` parse of one qualifying line: only a
`ValueError` from the `try:` block reaches the fallback. -/
def parse_solution_line (fields : List Tok) : Except String SolutionVals :=
  match parse_solution_try fields with
  | .ok v => .ok v
  | .error e => if e = "ValueError" then parse_solution_fallback fields else .error e

/-- The per-file line loop: at each sentinel line the guard
`float(fields[-3]) > self.score` is evaluated (its own exceptions propagate);
the first qualifying line is parsed and the loop `break`s; `ok none` means
the loop ended with no qualifying line. -/
def scan_lines (score : ℚ) : List LogLine → Except String (Option SolutionVals)
  | [] => .ok none
  | l :: ls =>
    if l.is_solutionrcd then
      match pyFloatAt l.fields (-3) with
      | .error e => .error e
      | .ok z =>
        if score < z then
          match parse_solution_line l.fields with
          | .ok v => .ok (some v)
          | .error e => .error e
        else scan_lines score ls
    else scan_lines score ls

/-- One iteration of the per-file loop of `return_z_score_results`.  The
local variables `ALPHA` … `Num_of_rot` live in the enclosing function scope,
so when this file has no qualifying line the unconditional
`self.results.append(...)` reads the values left over from an earlier file
(`prev`), and raises `NameError` if no file has assigned them yet.
`clogs` is the value of `'clogs' in log_dir`, which selects the 6- versus
7-character `log_name` slice. -/
def process_log (score : ℚ) (prev : Option SolutionVals) (log : String)
    (lines : List LogLine) (clogs : Bool) : Except String (SolutionVals × AmoreRec) :=
  match scan_lines score lines with
  | .error e => .error e
  | .ok cur =>
    match cur.orElse (fun _ => prev) with
    | none => .error "NameError"
    | some v =>
      let log_name := if clogs then log.take 6 else log.take 7
      .ok (v, ⟨log_name, v⟩)

/-- The whole file loop: `self.score` stays 0 throughout (it is never
reassigned), `self.results` accumulates one record per scanned file. -/
def collect_results (clogs : Bool) (score : ℚ) :
    Option SolutionVals → List (String × List LogLine) → List AmoreRec →
    Except String (List AmoreRec)
  | _, [], acc => .ok acc
  | prev, (log, lines) :: fs, acc =>
    match process_log score prev log lines clogs with
    | .error e => .error e
    | .ok (v, r) => collect_results clogs score (some v) fs (acc ++ [r])

/-- Stable insertion keeping a descending-by-`CC_F_Z_score` list descending;
an element moves past every earlier element whose score is ≥ its own, so
ties keep encounter order. -/
def insert_desc (x : AmoreRec) : List AmoreRec → List AmoreRec
  | [] => [x]
  | y :: ys =>
    if x.vals.CC_F_Z_score ≤ y.vals.CC_F_Z_score then y :: insert_desc x ys
    else x :: y :: ys

/-- `sorted(self.results, key=lambda x: x.CC_F_Z_score, reverse=True)`:
Python's sort is stable, modelled by left-to-right stable insertion. -/
def sorted_desc (l : List AmoreRec) : List AmoreRec :=
  l.foldl (fun acc x => insert_desc x acc) []

/-- The truncation loop of `return_z_score_results`: `count = 0` before the
loop and — as in the source — never incremented inside it, so the bound
checks compare against a constant 0. -/
def truncate_loop (clogs : Bool) (count : Nat) : List AmoreRec → List AmoreRec
  | [] => []
  | s :: ss =>
    if clogs then
      if count < 20 then s :: truncate_loop clogs count ss else truncate_loop clogs count ss
    else
      if count < 200 then s :: truncate_loop clogs count ss else truncate_loop clogs count ss

/-- `amore_results.return_z_score_results` on a fresh instance
(`self.results = []`, `self.sorted_results = []`, `self.score = 0`):
returns (`self.results`, `self.sorted_results`). -/
def return_z_score_results (clogs : Bool) (files : List (String × List LogLine)) :
    Except String (List AmoreRec × List AmoreRec) :=
  match collect_results clogs 0 none files [] with
  | .error e => .error e
  | .ok results => .ok (results, truncate_loop clogs 0 (sorted_desc results))

/-! ### Concrete log inputs and observation helpers for the ranker claims -/

/-- A 16-token `SOLUTIONRCD` field list whose angle, Z-score and peak-count
positions parse and whose `CC_F_Z_score` (`fields[-3]`) is `z`. -/
def solutionFields (z : ℚ) : List Tok :=
  [.raw, .raw, .num 1, .num 2, .num 3, .raw, .raw, .raw,
   .num 4, .num 5, .num 6, .num 7, .num 8, .num z, .num 9, .num 10]

/-- The `SolutionVals` that parsing `solutionFields z` yields. -/
def solutionValsAt (z : ℚ) : SolutionVals :=
  ⟨1, 2, 3, .val 4, .val 5, .val 6, .val 7, .val 8, z, 9, 10⟩

/-- Length of `self.sorted_results` after a run (`none` when it raised). -/
def sortedLenOf (r : Except String (List AmoreRec × List AmoreRec)) : Option Nat :=
  match r with
  | .ok p => some p.2.length
  | .error _ => none

/-- `self.results` after a run (`none` when it raised). -/
def resultsOf (r : Except String (List AmoreRec × List AmoreRec)) : Option (List AmoreRec) :=
  match r with
  | .ok p => some p.1
  | .error _ => none

/-- The exception a run raised (`none` when it succeeded). -/
def errorOf (r : Except String (List AmoreRec × List AmoreRec)) : Option String :=
  match r with
  | .error e => some e
  | .ok _ => none

/-- A log file consisting of one qualifying `SOLUTIONRCD` line with
`CC_F_Z_score` `z`. -/
def oneLineFile (n : String) (z : ℚ) : String × List LogLine := (n, [⟨true, solutionFields z⟩])

/-- 21 log files in a `clogs` directory, `CC_F_Z_score`s 1 … 21. -/
def clogFiles21 : List (String × List LogLine) :=
  [oneLineFile "m01.log" 1, oneLineFile "m02.log" 2, oneLineFile "m03.log" 3,
   oneLineFile "m04.log" 4, oneLineFile "m05.log" 5, oneLineFile "m06.log" 6,
   oneLineFile "m07.log" 7, oneLineFile "m08.log" 8, oneLineFile "m09.log" 9,
   oneLineFile "m10.log" 10, oneLineFile "m11.log" 11, oneLineFile "m12.log" 12,
   oneLineFile "m13.log" 13, oneLineFile "m14.log" 14, oneLineFile "m15.log" 15,
   oneLineFile "m16.log" 16, oneLineFile "m17.log" 17, oneLineFile "m18.log" 18,
   oneLineFile "m19.log" 19, oneLineFile "m20.log" 20, oneLineFile "m21.log" 21]

/-- A qualifying line whose CC_F/RF_F/CC_I/CC_P/Icp positions all fail
`float()`. -/
def junkMiddleLine : List Tok :=
  [.raw, .raw, .num 10, .num 20, .num 30, .raw, .raw, .raw,
   .raw, .raw, .raw, .raw, .raw, .num 5, .num 4, .num 3]

/-- C6 (code bug): 21 records in a `clogs` log directory survive into
`self.sorted_results` in full — `count` is initialised to 0 and never
incremented inside the truncation loop, so `count < 20` always holds and no
truncation to 20 (nor to 200) ever happens. -/
theorem return_z_score_results_skips_truncation :
    sortedLenOf (return_z_score_results true clogFiles21) = some 21 := by
  decide

/-- C7: a qualifying `SOLUTIONRCD` line (Z-score above the threshold 0)
whose CC_F/RF_F/CC_I/CC_P/Icp positions all fail `float()` parsing still
yields a record without raising: alpha/beta/gamma, both Z-scores and the
peak count are parsed floats, and the five failed fields carry the `'N/A'`
sentinel. -/
theorem qualifying_line_parse_degrades_gracefully (fields : List Tok) (a b g z1 z2 nr : ℚ)
    (h2 : pyFloatAt fields 2 = .ok a) (h3 : pyFloatAt fields 3 = .ok b)
    (h4 : pyFloatAt fields 4 = .ok g)
    (h8 : pyFloatAt fields 8 = .error "ValueError")
    (h9 : pyFloatAt fields 9 = .error "ValueError")
    (h10 : pyFloatAt fields 10 = .error "ValueError")
    (h11 : pyFloatAt fields 11 = .error "ValueError")
    (h12 : pyFloatAt fields 12 = .error "ValueError")
    (hm3 : pyFloatAt fields (-3) = .ok z1) (hm2 : pyFloatAt fields (-2) = .ok z2)
    (hm1 : pyFloatAt fields (-1) = .ok nr) (hq : 0 < z1) :
    scan_lines 0 [⟨true, fields⟩] =
      .ok (some ⟨a, b, g, .na, .na, .na, .na, .na, z1, z2, nr⟩) := by
  simp [scan_lines, parse_solution_line, parse_solution_try, parse_solution_fallback,
    Bind.bind, Except.bind, Pure.pure, Except.pure, h2, h3, h4, h8, hm3, hm2, hm1, hq]

/-- Witness for C7 on a concrete junk-middle line. -/
theorem qualifying_line_parse_degrades_gracefully_witness :
    pyFloatAt junkMiddleLine 8 = .error "ValueError" ∧
    (0 : ℚ) < 5 ∧
    scan_lines 0 [⟨true, junkMiddleLine⟩] =
      .ok (some ⟨10, 20, 30, .na, .na, .na, .na, .na, 5, 4, 3⟩) :=
  ⟨rfl, by norm_num,
    qualifying_line_parse_degrades_gracefully junkMiddleLine 10 20 30 5 4 3
      rfl rfl rfl rfl rfl rfl rfl rfl rfl rfl rfl (by norm_num)⟩

/-- C8 (code bug): a file none of whose sentinel lines exceeds the threshold
0 does not merely contribute no record.  Because `self.results.append` runs
unconditionally after the line loop, such a file re-appends the numeric
values left in the function-scope locals by the previous file under its own
log name, and when it is the first file scanned the run raises `NameError`
(the locals were never assigned). -/
theorem file_without_qualifying_line_reuses_stale_values :
    resultsOf (return_z_score_results true
        [oneLineFile "aaaaaa.log" 5, oneLineFile "bbbbbb.log" 0]) =
      some [⟨"aaaaaa", solutionValsAt 5⟩, ⟨"bbbbbb", solutionValsAt 5⟩] ∧
    errorOf (return_z_score_results true [oneLineFile "cccccc.log" 0]) = some "NameError" := by
  exact ⟨by decide, by decide⟩

/-! ## `simbad/util/amore_util.py` — `amore.amore_run`

Interleaving model of the worker pool.  `amore_run` fills a
`multiprocessing.Queue` with every file under `models_dir` (all puts happen
before any process starts), then starts `nproc` processes running

```
while not job_queue.empty():
    model = job_queue.get(timeout=TIME_OUT_IN_SECONDS)
    self._amore_run(model)
```

One worker is a status plus the list of models whose pipeline it has
completed.  The `empty()` test and the `get` are separate atomic actions, so
the race between them is representable; since no put ever follows the
starts, a queue seen empty stays empty and the 60 s `get` timeout
(`queue.Empty`, uncaught) is modelled as available exactly when the queue is
empty.  The per-model pipeline `_amore_run` is abstracted by
`pipe : M → Bool`: `false` means it raises — there is no try/except in the
loop, so a raise is an uncaught exception ending that worker process. -/

inductive WStatus (M : Type) : Type
  /-- about to evaluate `not job_queue.empty()` -/
  | atHead : WStatus M
  /-- saw a non-empty queue, about to call `job_queue.get(timeout=60)` -/
  | popping : WStatus M
  /-- holds a model, executing `self._amore_run(model)` -/
  | running : M → WStatus M
  /-- `empty()` was true: left the `while` loop, process exits normally -/
  | finished : WStatus M
  /-- an uncaught exception (`queue.Empty` or a pipeline raise) ended the process -/
  | crashed : WStatus M
  deriving DecidableEq, Repr

/-- A worker process: its control point and the models it has completed. -/
abbrev Worker (M : Type) := WStatus M × List M

/-- The shared queue plus every worker of the pool. -/
structure PoolState (M : Type) where
  queue : List M
  workers : List (Worker M)
  deriving DecidableEq, Repr

/-- The pool just after `amore_run` put all models and started `nproc`
workers. -/
def poolInit {M : Type} (models : List M) (nproc : Nat) : PoolState M :=
  ⟨models, List.replicate nproc (.atHead, [])⟩

/-- One atomic action of one worker (the worker is singled out by the
`l ++ _ :: r` decomposition; the queue is the only shared state). -/
inductive PoolStep {M : Type} (pipe : M → Bool) : PoolState M → PoolState M → Prop
  /-- `empty()` is true: leave the loop. -/
  | seeEmpty (l r : List (Worker M)) (ps : List M) :
      PoolStep pipe ⟨[], l ++ (.atHead, ps) :: r⟩ ⟨[], l ++ (.finished, ps) :: r⟩
  /-- `empty()` is false: proceed to the `get`. -/
  | seeNonempty (m : M) (q : List M) (l r : List (Worker M)) (ps : List M) :
      PoolStep pipe ⟨m :: q, l ++ (.atHead, ps) :: r⟩ ⟨m :: q, l ++ (.popping, ps) :: r⟩
  /-- `get` returns the front model, removing it from the shared queue. -/
  | popOk (m : M) (q : List M) (l r : List (Worker M)) (ps : List M) :
      PoolStep pipe ⟨m :: q, l ++ (.popping, ps) :: r⟩ ⟨q, l ++ (.running m, ps) :: r⟩
  /-- `get` on a queue another worker emptied meanwhile: after the 60 s
  timeout `queue.Empty` is raised and, uncaught, kills the process. -/
  | popEmptyTimeout (l r : List (Worker M)) (ps : List M) :
      PoolStep pipe ⟨[], l ++ (.popping, ps) :: r⟩ ⟨[], l ++ (.crashed, ps) :: r⟩
  /-- `_amore_run(model)` returns: loop back to the `empty()` test. -/
  | runOk (m : M) (q : List M) (l r : List (Worker M)) (ps : List M) :
      pipe m = true →
      PoolStep pipe ⟨q, l ++ (.running m, ps) :: r⟩ ⟨q, l ++ (.atHead, ps ++ [m]) :: r⟩
  /-- `_amore_run(model)` raises: nothing catches it, the process dies. -/
  | runRaise (m : M) (q : List M) (l r : List (Worker M)) (ps : List M) :
      pipe m = false →
      PoolStep pipe ⟨q, l ++ (.running m, ps) :: r⟩ ⟨q, l ++ (.crashed, ps) :: r⟩

/-- A worker that will never act again. -/
def isStopped {M : Type} : WStatus M → Bool
  | .finished => true
  | .crashed => true
  | _ => false

/-- The model a worker currently holds, if any. -/
def runningModel {M : Type} : WStatus M → Option M
  | .running m => some m
  | _ => none

/-- Models currently held by workers. -/
def inFlightW {M : Type} (ws : List (Worker M)) : List M :=
  ws.filterMap (fun w => runningModel w.1)

/-- Models whose pipeline completed, over all workers in order. -/
def processedW {M : Type} (ws : List (Worker M)) : List M :=
  (ws.map (fun w => w.2)).flatten

/-- Every worker has terminated (normally or by an exception). -/
def allStopped {M : Type} (s : PoolState M) : Prop :=
  ∀ w ∈ s.workers, isStopped w.1 = true

/-- Every model is in exactly one place: still queued, held by a worker, or
processed. -/
def poolMultiset {M : Type} (s : PoolState M) : Multiset M :=
  ↑s.queue + ↑(inFlightW s.workers) + ↑(processedW s.workers)

/-- The pool invariant: conservation of models, a stopped worker implies the
queue is already empty (there are no puts after start, so `empty()` and the
`get` timeout can only fire on the finally-empty queue), and the worker list
is nonempty. -/
def PoolInv {M : Type} (models : List M) (s : PoolState M) : Prop :=
  poolMultiset s = ↑models ∧
  ((∃ w ∈ s.workers, isStopped w.1 = true) → s.queue = []) ∧
  s.workers ≠ []

theorem noStep_of_allStopped {M : Type} {pipe : M → Bool} {s t : PoolState M}
    (hs : allStopped s) (hstep : PoolStep pipe s t) : False := by
  cases hstep with
  | seeEmpty l r ps => exact absurd (hs (.atHead, ps) (by simp)) (by simp [isStopped])
  | seeNonempty m q l r ps => exact absurd (hs (.atHead, ps) (by simp)) (by simp [isStopped])
  | popOk m q l r ps => exact absurd (hs (.popping, ps) (by simp)) (by simp [isStopped])
  | popEmptyTimeout l r ps => exact absurd (hs (.popping, ps) (by simp)) (by simp [isStopped])
  | runOk m q l r ps hp => exact absurd (hs (.running m, ps) (by simp)) (by simp [isStopped])
  | runRaise m q l r ps hp => exact absurd (hs (.running m, ps) (by simp)) (by simp [isStopped])

theorem poolStep_progress {M : Type} (pipe : M → Bool) (s : PoolState M)
    (h : ¬ allStopped s) : ∃ t, PoolStep pipe s t := by
  obtain ⟨q, ws⟩ := s
  simp only [allStopped] at h
  push_neg at h
  obtain ⟨w, hw, hns⟩ := h
  obtain ⟨l, r, hdec⟩ := List.append_of_mem hw
  obtain ⟨st, ps⟩ := w
  subst hdec
  cases st with
  | atHead =>
    cases q with
    | nil => exact ⟨_, .seeEmpty l r ps⟩
    | cons m q => exact ⟨_, .seeNonempty m q l r ps⟩
  | popping =>
    cases q with
    | nil => exact ⟨_, .popEmptyTimeout l r ps⟩
    | cons m q => exact ⟨_, .popOk m q l r ps⟩
  | running m =>
    cases hpm : pipe m with
    | true => exact ⟨_, .runOk m q l r ps hpm⟩
    | false => exact ⟨_, .runRaise m q l r ps hpm⟩
  | finished => exact absurd rfl hns
  | crashed => exact absurd rfl hns

/-- A stopped worker among the new workers was already stopped among the old
ones, when the acting worker is unstopped on both sides. -/
theorem stopped_transfer {M : Type} {x y : WStatus M} {ps ps' : List M}
    (l r : List (Worker M)) (hy : isStopped y = false)
    (hex : ∃ w ∈ l ++ (y, ps') :: r, isStopped w.1 = true) :
    ∃ w ∈ l ++ (x, ps) :: r, isStopped w.1 = true := by
  obtain ⟨w, hw, hiw⟩ := hex
  rcases List.mem_append.mp hw with h1 | h2
  · exact ⟨w, List.mem_append.mpr (Or.inl h1), hiw⟩
  · rcases List.mem_cons.mp h2 with h3 | h4
    · rw [h3] at hiw
      rw [hy] at hiw
      exact Bool.noConfusion hiw
    · exact ⟨w, List.mem_append.mpr (Or.inr (List.mem_cons.mpr (Or.inr h4))), hiw⟩

theorem poolStep_preserves_inv {M : Type} {pipe : M → Bool} {models : List M}
    (hpipe : ∀ m ∈ models, pipe m = true) {s t : PoolState M}
    (hstep : PoolStep pipe s t) (hinv : PoolInv models s) : PoolInv models t := by
  obtain ⟨hmul, hstop, hne⟩ := hinv
  cases hstep with
  | seeEmpty l r ps =>
    refine ⟨?_, fun _ => rfl, by simp⟩
    simp only [poolMultiset, inFlightW, processedW, runningModel, List.filterMap_append,
      List.filterMap_cons, List.map_append, List.map_cons, List.flatten_append,
      List.flatten_cons, ← Multiset.coe_add, ← Multiset.cons_coe,
      ← Multiset.singleton_add, Multiset.coe_singleton] at hmul ⊢
    rw [← hmul]
  | seeNonempty m q l r ps =>
    refine ⟨?_, fun hex => hstop (stopped_transfer l r (by simp [isStopped]) hex), by simp⟩
    simp only [poolMultiset, inFlightW, processedW, runningModel, List.filterMap_append,
      List.filterMap_cons, List.map_append, List.map_cons, List.flatten_append,
      List.flatten_cons, ← Multiset.coe_add, ← Multiset.cons_coe,
      ← Multiset.singleton_add, Multiset.coe_singleton] at hmul ⊢
    rw [← hmul]
  | popOk m q l r ps =>
    refine ⟨?_,
      fun hex => List.noConfusion (hstop (stopped_transfer l r (by simp [isStopped]) hex)),
      by simp⟩
    simp only [poolMultiset, inFlightW, processedW, runningModel, List.filterMap_append,
      List.filterMap_cons, List.map_append, List.map_cons, List.flatten_append,
      List.flatten_cons, ← Multiset.coe_add, ← Multiset.cons_coe,
      ← Multiset.singleton_add, Multiset.coe_singleton] at hmul ⊢
    rw [← hmul]
    abel
  | popEmptyTimeout l r ps =>
    refine ⟨?_, fun _ => rfl, by simp⟩
    simp only [poolMultiset, inFlightW, processedW, runningModel, List.filterMap_append,
      List.filterMap_cons, List.map_append, List.map_cons, List.flatten_append,
      List.flatten_cons, ← Multiset.coe_add, ← Multiset.cons_coe,
      ← Multiset.singleton_add, Multiset.coe_singleton] at hmul ⊢
    rw [← hmul]
  | runOk m q l r ps hp =>
    refine ⟨?_, fun hex => hstop (stopped_transfer l r (by simp [isStopped]) hex), by simp⟩
    simp only [poolMultiset, inFlightW, processedW, runningModel, List.filterMap_append,
      List.filterMap_cons, List.map_append, List.map_cons, List.flatten_append,
      List.flatten_cons, ← Multiset.coe_add, ← Multiset.cons_coe,
      ← Multiset.singleton_add, Multiset.coe_singleton] at hmul ⊢
    rw [← hmul]
    abel
  | runRaise m q l r ps hp =>
    exfalso
    have hm : m ∈ models := by
      have hmem : m ∈ poolMultiset (⟨q, l ++ (.running m, ps) :: r⟩ : PoolState M) := by
        have hf : m ∈ inFlightW (l ++ ((.running m : WStatus M), ps) :: r) :=
          List.mem_filterMap.mpr ⟨(.running m, ps), by simp, rfl⟩
        simp only [poolMultiset]
        exact Multiset.mem_add.mpr (Or.inl (Multiset.mem_add.mpr (Or.inr (by exact_mod_cast hf))))
      rw [hmul] at hmem
      exact_mod_cast hmem
    have hh := hpipe m hm
    rw [hp] at hh
    exact Bool.noConfusion hh

theorem poolInit_inv {M : Type} (models : List M) (nproc : Nat) (hW : 0 < nproc) :
    PoolInv models (poolInit models nproc) := by
  have hfl : inFlightW (M := M) (List.replicate nproc (.atHead, [])) = [] :=
    List.filterMap_eq_nil_iff.mpr (fun w hw => by
      rw [List.eq_of_mem_replicate hw]; rfl)
  have hpr : processedW (M := M) (List.replicate nproc (.atHead, [])) = [] := by
    induction nproc with
    | zero => rfl
    | succ n ih => simpa [List.replicate_succ, processedW] using ih
  refine ⟨?_, ?_, ?_⟩
  · simp [poolMultiset, poolInit, hfl, hpr]
  · rintro ⟨w, hw, hsw⟩
    rw [List.eq_of_mem_replicate hw] at hsw
    simp [isStopped] at hsw
  · simp only [poolInit]
    intro h
    have hlen := congrArg List.length h
    simp at hlen
    omega

theorem poolInv_of_reachable {M : Type} {pipe : M → Bool} {models : List M} {nproc : Nat}
    (hW : 0 < nproc) (hpipe : ∀ m ∈ models, pipe m = true) {s : PoolState M}
    (hreach : Relation.ReflTransGen (PoolStep pipe) (poolInit models nproc) s) :
    PoolInv models s := by
  induction hreach with
  | refl => exact poolInit_inv models nproc hW
  | tail hsteps hstep ih => exact poolStep_preserves_inv hpipe hstep ih

theorem inFlight_nil_of_allStopped {M : Type} (s : PoolState M) (h : allStopped s) :
    inFlightW s.workers = [] := by
  refine List.filterMap_eq_nil_iff.mpr (fun w hw => ?_)
  have hsw := h w hw
  obtain ⟨st, ps⟩ := w
  cases st <;> simp_all [isStopped, runningModel]

theorem getElem?_append_cons_ne {α : Type} {l r : List α} {w w' x : α} {i : Nat}
    (h : (l ++ w :: r)[i]? = some x) (hx : x ≠ w) : (l ++ w' :: r)[i]? = some x := by
  rcases Nat.lt_trichotomy i l.length with hlt | heq | hgt
  · rw [List.getElem?_append, if_pos hlt] at h ⊢
    exact h
  · rw [List.getElem?_append_right (le_of_eq heq.symm), heq, Nat.sub_self] at h
    simp at h
    exact absurd h.symm hx
  · rw [List.getElem?_append_right (Nat.le_of_lt hgt)] at h ⊢
    obtain ⟨k, hk⟩ : ∃ k, i - l.length = k + 1 := ⟨i - l.length - 1, by omega⟩
    rw [hk] at h ⊢
    simpa using h

/-- A worker that has crashed stays crashed with its processed list frozen,
whatever any worker does next. -/
theorem crashed_persists {M : Type} {pipe : M → Bool} {s t : PoolState M}
    (h : PoolStep pipe s t) (i : Nat) (ps₀ : List M)
    (hw : s.workers[i]? = some (.crashed, ps₀)) :
    t.workers[i]? = some (.crashed, ps₀) := by
  cases h with
  | seeEmpty l r ps => exact getElem?_append_cons_ne hw (by simp)
  | seeNonempty m q l r ps => exact getElem?_append_cons_ne hw (by simp)
  | popOk m q l r ps => exact getElem?_append_cons_ne hw (by simp)
  | popEmptyTimeout l r ps => exact getElem?_append_cons_ne hw (by simp)
  | runOk m q l r ps hp => exact getElem?_append_cons_ne hw (by simp)
  | runRaise m q l r ps hp => exact getElem?_append_cons_ne hw (by simp)

theorem singleton_eq_append_cons {α : Type} {x y : α} {l r : List α}
    (h : [x] = l ++ y :: r) : l = [] ∧ x = y ∧ r = [] := by
  cases l with
  | nil => simp at h; exact ⟨rfl, h.1, h.2⟩
  | cons a l' => simp at h

/-- Case-split on a pool step, extracting the acting worker. -/
theorem poolStep_inversion {M : Type} {pipe : M → Bool} {s t : PoolState M}
    (h : PoolStep pipe s t) :
    (∃ l r ps, s.workers = l ++ (.atHead, ps) :: r ∧ s.queue = [] ∧
      t = ⟨[], l ++ (.finished, ps) :: r⟩) ∨
    (∃ m q l r ps, s.workers = l ++ (.atHead, ps) :: r ∧ s.queue = m :: q ∧
      t = ⟨m :: q, l ++ (.popping, ps) :: r⟩) ∨
    (∃ m q l r ps, s.workers = l ++ (.popping, ps) :: r ∧ s.queue = m :: q ∧
      t = ⟨q, l ++ (.running m, ps) :: r⟩) ∨
    (∃ l r ps, s.workers = l ++ (.popping, ps) :: r ∧ s.queue = [] ∧
      t = ⟨[], l ++ (.crashed, ps) :: r⟩) ∨
    (∃ m l r ps, pipe m = true ∧ s.workers = l ++ (.running m, ps) :: r ∧
      t = ⟨s.queue, l ++ (.atHead, ps ++ [m]) :: r⟩) ∨
    (∃ m l r ps, pipe m = false ∧ s.workers = l ++ (.running m, ps) :: r ∧
      t = ⟨s.queue, l ++ (.crashed, ps) :: r⟩) := by
  cases h with
  | seeEmpty l r ps => exact Or.inl ⟨l, r, ps, rfl, rfl, rfl⟩
  | seeNonempty m q l r ps => exact Or.inr (Or.inl ⟨m, q, l, r, ps, rfl, rfl, rfl⟩)
  | popOk m q l r ps => exact Or.inr (Or.inr (Or.inl ⟨m, q, l, r, ps, rfl, rfl, rfl⟩))
  | popEmptyTimeout l r ps => exact Or.inr (Or.inr (Or.inr (Or.inl ⟨l, r, ps, rfl, rfl, rfl⟩)))
  | runOk m q l r ps hp =>
    exact Or.inr (Or.inr (Or.inr (Or.inr (Or.inl ⟨m, l, r, ps, hp, rfl, rfl⟩))))
  | runRaise m q l r ps hp =>
    exact Or.inr (Or.inr (Or.inr (Or.inr (Or.inr ⟨m, l, r, ps, hp, rfl, rfl⟩))))

/-- An always-succeeding per-model pipeline. -/
def pipeAllOk : Nat → Bool := fun _ => true

/-- A pipeline that raises on model `0` and succeeds elsewhere. -/
def pipeFailOnZero : Nat → Bool := fun m => m != 0

/-! ### Claim theorems for the worker pool -/

/-- C4 counterexample: with 2 model files and 1 worker (W ≤ N), a per-model
pipeline that raises on the first model drives the pool — as the source runs
it, with no try/except around `_amore_run` — into a state from which no step
is possible, yet the queue still holds the second model and nothing was
processed: the run terminates without processing each model exactly once and
without draining the queue. -/
theorem amore_run_failed_pipeline_drops_models :
    Relation.ReflTransGen (PoolStep pipeFailOnZero) (poolInit [0, 1] 1)
      ⟨[1], [(.crashed, [])]⟩ ∧
    (∀ t, ¬ PoolStep pipeFailOnZero (⟨[1], [(.crashed, [])]⟩ : PoolState Nat) t) ∧
    (⟨[1], [(.crashed, [])]⟩ : PoolState Nat).queue ≠ [] ∧
    processedW ((⟨[1], [(.crashed, [])]⟩ : PoolState Nat).workers) = [] := by
  refine ⟨?_, ?_, by simp, rfl⟩
  · exact Relation.ReflTransGen.head (.seeNonempty 0 [1] [] [] [])
      (Relation.ReflTransGen.head (.popOk 0 [1] [] [] [])
        (Relation.ReflTransGen.head (.runRaise 0 [1] [] [] [] rfl)
          Relation.ReflTransGen.refl))
  · exact fun t ht => noStep_of_allStopped
      (fun w hw => by rw [List.eq_of_mem_singleton hw]; rfl) ht

/-- C4 amended: provided at least one worker is started and no per-model
pipeline raises, every run of the pool that can make no further step has all
workers terminated, the queue drained to empty, and the models processed
across all workers a permutation of the N distinct input models — each model
processed exactly once, none duplicated, none dropped. -/
theorem amore_run_processes_each_model_exactly_once {M : Type} (pipe : M → Bool)
    (models : List M) (nproc : Nat) (hW : 0 < nproc) (hWN : nproc ≤ models.length)
    (hnd : models.Nodup) (hpipe : ∀ m ∈ models, pipe m = true)
    (s : PoolState M)
    (hreach : Relation.ReflTransGen (PoolStep pipe) (poolInit models nproc) s)
    (hstuck : ∀ t, ¬ PoolStep pipe s t) :
    allStopped s ∧ s.queue = [] ∧ (processedW s.workers).Perm models ∧
      (processedW s.workers).Nodup := by
  obtain ⟨hmul, hstop, hne⟩ := poolInv_of_reachable hW hpipe hreach
  have hall : allStopped s := by
    by_contra hna
    obtain ⟨t, ht⟩ := poolStep_progress pipe s hna
    exact hstuck t ht
  have hq : s.queue = [] := by
    obtain ⟨w, hw⟩ := List.exists_mem_of_ne_nil s.workers hne
    exact hstop ⟨w, hw, hall w hw⟩
  have hfl := inFlight_nil_of_allStopped s hall
  have hperm : (processedW s.workers).Perm models := by
    rw [poolMultiset, hq, hfl] at hmul
    simp only [Multiset.coe_nil, zero_add] at hmul
    exact Multiset.coe_eq_coe.mp hmul
  exact ⟨hall, hq, hperm, (hperm.nodup_iff).mpr hnd⟩

/-- Witness for amended C4: one worker, one model, successful pipeline; the
run ends with the queue empty and the model processed once. -/
theorem amore_run_processes_each_model_exactly_once_witness :
    0 < 1 ∧ 1 ≤ ([0] : List Nat).length ∧ ([0] : List Nat).Nodup ∧
    (∀ m ∈ ([0] : List Nat), pipeAllOk m = true) ∧
    Relation.ReflTransGen (PoolStep pipeAllOk) (poolInit [0] 1)
      ⟨[], [(.finished, [0])]⟩ ∧
    (∀ t, ¬ PoolStep pipeAllOk (⟨[], [(.finished, [0])]⟩ : PoolState Nat) t) ∧
    (allStopped (⟨[], [(.finished, [0])]⟩ : PoolState Nat) ∧
      (⟨[], [(.finished, [0])]⟩ : PoolState Nat).queue = [] ∧
      (processedW ((⟨[], [(.finished, [0])]⟩ : PoolState Nat).workers)).Perm [0] ∧
      (processedW ((⟨[], [(.finished, [0])]⟩ : PoolState Nat).workers)).Nodup) := by
  have hreach : Relation.ReflTransGen (PoolStep pipeAllOk) (poolInit [0] 1)
      ⟨[], [(.finished, [0])]⟩ :=
    Relation.ReflTransGen.head (.seeNonempty 0 [] [] [] [])
      (Relation.ReflTransGen.head (.popOk 0 [] [] [] [])
        (Relation.ReflTransGen.head (.runOk 0 [] [] [] [] rfl)
          (Relation.ReflTransGen.head (.seeEmpty [] [] [0])
            Relation.ReflTransGen.refl)))
  have hstuck : ∀ t, ¬ PoolStep pipeAllOk (⟨[], [(.finished, [0])]⟩ : PoolState Nat) t :=
    fun t ht => noStep_of_allStopped
      (fun w hw => by rw [List.eq_of_mem_singleton hw]; rfl) ht
  exact ⟨Nat.one_pos, by decide, by decide, by decide, hreach, hstuck,
    amore_run_processes_each_model_exactly_once pipeAllOk [0] 1 Nat.one_pos (by decide)
      (by decide) (by decide) _ hreach hstuck⟩

/-- C5 counterexample: a worker whose pipeline raises on its model does not
log the exception and proceed to the next queued model — its only possible
step is into `crashed`, from which it makes no step at all; the next model
stays in the queue. -/
theorem pipeline_exception_terminates_worker_loop :
    PoolStep pipeFailOnZero ⟨[1], [(.running 0, [])]⟩ ⟨[1], [(.crashed, [])]⟩ ∧
    (∀ t, PoolStep pipeFailOnZero (⟨[1], [(.running 0, [])]⟩ : PoolState Nat) t →
      t = ⟨[1], [(.crashed, [])]⟩) ∧
    (∀ t, ¬ PoolStep pipeFailOnZero (⟨[1], [(.crashed, [])]⟩ : PoolState Nat) t) := by
  refine ⟨.runRaise 0 [1] [] [] [] rfl, ?_, ?_⟩
  · intro t h
    rcases poolStep_inversion h with
        ⟨l, r, ps, hws, hq, ht⟩ | ⟨m, q, l, r, ps, hws, hq, ht⟩ |
        ⟨m, q, l, r, ps, hws, hq, ht⟩ | ⟨l, r, ps, hws, hq, ht⟩ |
        ⟨m, l, r, ps, hp, hws, ht⟩ | ⟨m, l, r, ps, hp, hws, ht⟩
    · obtain ⟨h1, h2, h3⟩ := singleton_eq_append_cons hws
      exact absurd h2 (by simp)
    · obtain ⟨h1, h2, h3⟩ := singleton_eq_append_cons hws
      exact absurd h2 (by simp)
    · obtain ⟨h1, h2, h3⟩ := singleton_eq_append_cons hws
      exact absurd h2 (by simp)
    · obtain ⟨h1, h2, h3⟩ := singleton_eq_append_cons hws
      exact absurd h2 (by simp)
    · obtain ⟨h1, h2, h3⟩ := singleton_eq_append_cons hws
      rw [Prod.mk.injEq] at h2
      obtain ⟨hm, hps⟩ := h2
      cases hm
      exact absurd hp (by simp [pipeFailOnZero])
    · obtain ⟨h1, h2, h3⟩ := singleton_eq_append_cons hws
      rw [Prod.mk.injEq] at h2
      obtain ⟨hm, hps⟩ := h2
      cases hm
      subst h1
      subst h3
      rw [ht]
      simp [← hps]
  · exact fun t ht => noStep_of_allStopped
      (fun w hw => by rw [List.eq_of_mem_singleton hw]; rfl) ht

/-- C5 amended: an exception in one model's pipeline is not caught at the
per-model boundary: it moves exactly that worker to `crashed` — leaving the
queue and every sibling worker untouched — and a crashed worker stays
crashed with its processed list frozen through every subsequent step, so the
failure never reaches siblings or the parent but that worker processes no
further queued model. -/
theorem pipeline_exception_kills_only_its_worker {M : Type} (pipe : M → Bool)
    (q : List M) (l r : List (Worker M)) (ps : List M) (m : M)
    (hfail : pipe m = false) :
    PoolStep pipe ⟨q, l ++ (.running m, ps) :: r⟩ ⟨q, l ++ (.crashed, ps) :: r⟩ ∧
    (∀ (s t : PoolState M) (i : Nat) (ps₀ : List M), PoolStep pipe s t →
      s.workers[i]? = some (.crashed, ps₀) → t.workers[i]? = some (.crashed, ps₀)) :=
  ⟨.runRaise m q l r ps hfail, fun _ _ i ps₀ h hw => crashed_persists h i ps₀ hw⟩

/-- Witness for amended C5: worker 0 crashes on model 0 while its sibling
(still at the loop head) and the queued model 1 are untouched. -/
theorem pipeline_exception_kills_only_its_worker_witness :
    pipeFailOnZero 0 = false ∧
    (PoolStep pipeFailOnZero ⟨[1], [(.running 0, []), (.atHead, [])]⟩
        ⟨[1], [(.crashed, []), (.atHead, [])]⟩ ∧
      (∀ (s t : PoolState Nat) (i : Nat) (ps₀ : List Nat), PoolStep pipeFailOnZero s t →
        s.workers[i]? = some (.crashed, ps₀) → t.workers[i]? = some (.crashed, ps₀))) :=
  ⟨rfl, pipeline_exception_kills_only_its_worker pipeFailOnZero [1] [] [(.atHead, [])] [] 0 rfl⟩

end Simbad
